import Mathlib

/-!
Shallow embedding of the predator–prey aposematism model
(`src/models/predator_model.py`, `src/models/prey_model.py`,
`src/models/environment_class.py`).

Modelling conventions:
* Python floats are modelled as `ℚ`; Python ints as `Int` (or `Nat` where the
  quantity is a count, e.g. `memory_size`, `prey_eaten`).
* Calls to the global random source are modelled by explicit oracle
  parameters: `random.randint(-1, 1)` becomes an `Int` argument expected to
  lie in `[-1, 1]`, `random.random()` becomes a `ℚ` argument in `[0, 1)`,
  `random.uniform(a, b)` becomes a `ℚ` argument in `[a, b]`, and
  `np.random.randint(0, n)` becomes `r % n` for an oracle `r : Nat`.
* Operations that can raise a Python exception return `Except Unit _`;
  `Except.error ()` marks the raise site.
* The two statements of `Predator.move` that assign `new_x`/`new_y` are
  missing one closing parenthesis each in the source; the embedding repairs
  that pure syntax slip and keeps the control flow exactly as written.
-/

/-- State of `Predator` (`predator_model.py`): trait vector plus instance
state; `sick_timer` is an `Int` because the code can drive it negative. -/
structure Predator where
  hunting_success : ℚ
  learning_rate : ℚ
  reproduction_rate : ℚ
  detection_probability : ℚ
  visual_range : Int
  memory_size : Nat
  toxicity_threshold : ℚ
  sickness_duration : Int
  prey_eaten : Nat
  memory : List (ℚ × String)
  position : Int × Int
  sick_timer : Int
  deriving Repr, DecidableEq

/-- State of `Prey` (`prey_model.py`). -/
structure Prey where
  camouflage : ℚ
  aposematic : Bool
  aposematic_pattern : ℚ
  toxicity : ℚ
  camo_aposematic_distance : Int
  movement_probability : ℚ
  evolution_threshold : ℚ
  evolution_probability : ℚ
  reproduction_rate : ℚ
  path : List (Int × Int)
  outcome : String
  deriving Repr, DecidableEq

namespace Predator

/-- Embedding of `Predator.move` (predator_model.py:105-121).  The code reads:
`if self.sick_timer > 0:` → move with clamping; `else:` →
`self.sick_timer -= 1`.  (Its docstring claims the opposite: a sick
predator should stand still and count its timer down.)  `dx`, `dy` are the
two `random.randint(-1, 1)` draws. -/
def move (p : Predator) (grid_size : Int) (dx dy : Int) : Predator :=
  if p.sick_timer > 0 then
    let x := p.position.1
    let y := p.position.2
    let new_x := max 0 (min (x + dx) (grid_size - 1))
    let new_y := max 0 (min (y + dy) (grid_size - 1))
    { p with position := (new_x, new_y) }
  else
    { p with sick_timer := p.sick_timer - 1 }

/-- Embedding of `Predator.detect_prey` (predator_model.py:123-144).  No sickness check
appears in the body (the docstring says a sick predator cannot detect).
The camouflage branch executes `random.randint() < (...)`; `random.randint`
requires two arguments, so that call raises `TypeError` before any
comparison happens — modelled as `Except.error ()`. -/
def detect_prey (p : Predator) (prey : Prey) (distance : Int) :
    Except Unit Bool :=
  if distance ≤ p.visual_range then
    if distance > prey.camo_aposematic_distance then
      Except.error ()
    else
      Except.ok true
  else
    Except.ok false

/-- Embedding of `Predator.avoid_prey` (predator_model.py:171-184). -/
def avoid_prey (p : Predator) (prey : Prey) : Bool :=
  if prey.aposematic ∧ prey.aposematic_pattern ≥ p.toxicity_threshold then
    true
  else
    false

/-- Embedding of `Predator.hunt` (predator_model.py:146-169); no sickness check appears
in the body (the docstring says a sick predator cannot hunt).  `r` is the
`random.random()` draw compared with `hunting_success`; the result pairs
the updated predator with the returned `bool`. -/
def hunt (p : Predator) (prey : Prey) (distance : Int) (r : ℚ) :
    Except Unit (Predator × Bool) :=
  match p.detect_prey prey distance with
  | Except.error e => Except.error e
  | Except.ok detected =>
    if detected then
      if p.avoid_prey prey then
        Except.ok (p, false)
      else if r < p.hunting_success then
        Except.ok ({ p with prey_eaten := p.prey_eaten + 1 }, true)
      else
        Except.ok (p, false)
    else
      Except.ok (p, false)

/-- Embedding of `Predator.learn` (predator_model.py:186-207): append, pop the oldest
when over `memory_size`, and when the buffer sits exactly at
`memory_size` compute `success_rate = count("satisfied") / memory_size`
and decay `hunting_success` and `toxicity_threshold` by 10% when it is
below `learning_rate`.  With `memory_size = 0` the division is Python's
`ZeroDivisionError`, modelled as `Except.error ()`. -/
def learn (p : Predator) (prey_pattern : ℚ) (outcome : String) :
    Except Unit Predator :=
  let mem0 := p.memory ++ [(prey_pattern, outcome)]
  let mem := if mem0.length > p.memory_size then mem0.tail else mem0
  if mem.length = p.memory_size then
    if p.memory_size = 0 then
      Except.error ()
    else
      let success_rate : ℚ :=
        ((mem.filter (fun e => e.2 = "satisfied")).length : ℚ) /
          (p.memory_size : ℚ)
      if success_rate < p.learning_rate then
        Except.ok { p with
          memory := mem,
          hunting_success := p.hunting_success * (9 / 10),
          toxicity_threshold := p.toxicity_threshold * (9 / 10) }
      else
        Except.ok { p with memory := mem }
  else
    Except.ok { p with memory := mem }

/-- Embedding of `Predator.get_sick` (predator_model.py:209-214). -/
def get_sick (p : Predator) : Predator :=
  { p with sick_timer := p.sickness_duration }

/-- Embedding of `Predator.reproduce` (predator_model.py:216-231); `r` is the
`random.random()` draw. -/
def reproduce (p : Predator) (min_prey_eaten : Nat) (r : ℚ) :
    Predator × Bool :=
  if p.prey_eaten ≥ min_prey_eaten then
    if r < p.reproduction_rate then
      ({ p with prey_eaten := 0 }, true)
    else
      (p, false)
  else
    (p, false)

/-- Iterated `learn` over a list of (prey_pattern, outcome) calls. -/
def learnRun (p : Predator) (calls : List (ℚ × String)) :
    Except Unit Predator :=
  calls.foldlM (fun q c => q.learn c.1 c.2) p

end Predator

namespace Prey

/-- Embedding of `Prey.is_warning` (prey_model.py:69-80). -/
def is_warning (p : Prey) (predator_distance : Int) : Bool :=
  predator_distance ≤ p.camo_aposematic_distance

/-- Embedding of `Prey.evolve` (prey_model.py:128-142).  `r` is the `random.random()`
draw compared with `evolution_probability`; `d1`, `d2` are the two
`random.uniform(0.01, 0.1)` draws. -/
def evolve (p : Prey) (predation_pressure : ℚ) (r : ℚ) (d1 d2 : ℚ) : Prey :=
  if predation_pressure > p.evolution_threshold then
    if r < p.evolution_probability then
      { p with
        aposematic_pattern := min 1 (p.aposematic_pattern + d1),
        toxicity := min 1 (p.toxicity + d2) }
    else
      p
  else
    p

end Prey

namespace Environment

/-- Embedding of `Environment.get_random_location` (environment_class.py:62-69):
`np.random.randint(0, self.width - 1), np.random.randint(0, self.height - 1)`;
`np.random.randint(0, n)` draws from `[0, n)`, modelled as `r % n` for an
oracle `r`. -/
def get_random_location (width height : Nat) (r : Nat × Nat) : Nat × Nat :=
  (r.1 % (width - 1), r.2 % (height - 1))

/-- Embedding of `Environment.is_within_bounds` (environment_class.py:72-84). -/
def is_within_bounds (width height : Nat) (position : Int × Int) : Bool :=
  0 ≤ position.1 ∧ position.1 < (width : Int) ∧
    0 ≤ position.2 ∧ position.2 < (height : Int)

/-- The `while True` retry loop inside `Environment.place_creatures`
(environment_class.py:44-51 and 52-59): draw locations until one misses the
`positions` set.  The random stream is an explicit list of oracle draws;
an exhausted stream (`none`) means the Python loop would still be spinning
after that many draws. -/
def place_one (width height : Nat) (occupied : List (Nat × Nat)) :
    List (Nat × Nat) → Option ((Nat × Nat) × List (Nat × Nat))
  | [] => none
  | d :: ds =>
    let loc := get_random_location width height d
    if loc ∈ occupied then place_one width height occupied ds
    else some (loc, ds)

/-- Embedding of `Environment.place_creatures` (environment_class.py:37-59), abstracted
over the total number `n` of creatures to place (predators then prey share
the single `positions` set); returns the list of assigned positions, newest
first, on top of `occupied`. -/
def place_creatures (width height : Nat) :
    Nat → List (Nat × Nat) → List (Nat × Nat) → Option (List (Nat × Nat))
  | 0, occupied, _ => some occupied
  | n + 1, occupied, draws =>
    match place_one width height occupied draws with
    | none => none
    | some (loc, ds) => place_creatures width height n (loc :: occupied) ds

end Environment

/-! Concrete fixtures used by the claim theorems and witnesses. -/

/-- A predator that is currently sick (`sick_timer = 1`). -/
def sickPredator : Predator where
  hunting_success := 1
  learning_rate := 1/2
  reproduction_rate := 1/2
  detection_probability := 1/2
  visual_range := 5
  memory_size := 2
  toxicity_threshold := 1/2
  sickness_duration := 3
  prey_eaten := 0
  memory := []
  position := (0, 0)
  sick_timer := 1

/-- The same predator, healthy (`sick_timer = 0`). -/
def healthyPredator : Predator := { sickPredator with sick_timer := 0 }

/-- The same predator with `memory_size = 0` (a valid value: §3 has
`memory_size ∈ ℕ`). -/
def zeroMemoryPredator : Predator := { sickPredator with memory_size := 0 }

/-- A non-aposematic prey with `camo_aposematic_distance = 2`. -/
def plainPrey : Prey where
  camouflage := 1/2
  aposematic := false
  aposematic_pattern := 0
  toxicity := 0
  camo_aposematic_distance := 2
  movement_probability := 1/2
  evolution_threshold := 1/2
  evolution_probability := 1/2
  reproduction_rate := 1/2
  path := []
  outcome := ""

/-- Claim C1: the sick test in `Predator.move` is inverted relative to the
spec (and to the method's own docstring).  With `sick_timer = 1` the
predator moves and keeps its timer; with `sick_timer = 0` it stays put and
drives the timer to `-1`. -/
theorem move_sick_logic_inverted :
    sickPredator.sick_timer = 1 ∧
    (sickPredator.move 5 1 1).position = (1, 1) ∧
    (sickPredator.move 5 1 1).sick_timer = 1 ∧
    healthyPredator.sick_timer = 0 ∧
    (healthyPredator.move 5 1 1).position = healthyPredator.position ∧
    (healthyPredator.move 5 1 1).sick_timer = -1 :=
  ⟨rfl, rfl, rfl, rfl, rfl, rfl⟩

/-- Claim C2: `Predator.detect_prey` never consults `sick_timer`, so a sick
predator still detects a close prey deterministically, contradicting the
spec (and the method's own docstring). -/
theorem detect_prey_ignores_sick_timer :
    sickPredator.sick_timer = 1 ∧
    sickPredator.detect_prey plainPrey 0 = Except.ok true :=
  ⟨rfl, rfl⟩

/-- Claim C3: `Predator.hunt` never consults `sick_timer` either, so a sick
predator can hunt successfully and increment `prey_eaten`, contradicting
the spec (and the method's own docstring). -/
theorem hunt_succeeds_while_sick :
    sickPredator.sick_timer = 1 ∧
    sickPredator.hunt plainPrey 0 0 =
      Except.ok ({ sickPredator with prey_eaten := 1 }, true) :=
  ⟨rfl, rfl⟩

/-- Claim C4: after a single `move` of a healthy predator `sick_timer`
becomes `-1` (and keeps falling), and a sick predator's `move` does not
decrement it at all. -/
theorem sick_timer_goes_negative :
    healthyPredator.sick_timer = 0 ∧
    (healthyPredator.move 5 0 0).sick_timer = -1 ∧
    ((healthyPredator.move 5 0 0).move 5 0 0).sick_timer = -2 ∧
    (sickPredator.move 5 0 0).sick_timer = sickPredator.sick_timer :=
  ⟨rfl, rfl, rfl, rfl⟩

/-- Claim C5: two operations raise on valid inputs: the camouflage branch
of `detect_prey` calls `random.randint()` with no arguments (`TypeError`),
and `learn` divides by `memory_size` (`ZeroDivisionError` when it is 0). -/
theorem detect_prey_and_learn_fault :
    healthyPredator.detect_prey plainPrey 3 = Except.error () ∧
    zeroMemoryPredator.learn (1/2) "death" = Except.error () :=
  ⟨rfl, rfl⟩

/-! Helper lemmas about `Predator.learn`, shared by the claim theorems. -/

theorem learn_ok (p : Predator) (pat : ℚ) (out : String)
    (hms : p.memory_size ≠ 0) :
    ∃ q, p.learn pat out = Except.ok q ∧
      q.memory = (if (p.memory ++ [(pat, out)]).length > p.memory_size
          then (p.memory ++ [(pat, out)]).tail
          else p.memory ++ [(pat, out)]) ∧
      q.memory_size = p.memory_size ∧
      q.learning_rate = p.learning_rate := by
  simp only [Predator.learn, if_neg hms]
  split <;> split <;> (try split) <;> exact ⟨_, rfl, rfl, rfl, rfl⟩

theorem drop_succ_append {α : Type} (l1 l2 : List α) (n : Nat) (h : l1 ≠ []) :
    (l1 ++ l2).drop (n + 1) = (l1.tail ++ l2).drop n := by
  cases l1 with
  | nil => exact absurd rfl h
  | cons a t => rw [List.cons_append, List.drop_succ_cons, List.tail_cons]

theorem learnRun_window (calls : List (ℚ × String)) (p : Predator)
    (hms : p.memory_size ≠ 0) (hlen : p.memory.length ≤ p.memory_size) :
    ∃ q, p.learnRun calls = Except.ok q ∧
      q.memory = (p.memory ++ calls).drop
        (p.memory.length + calls.length - p.memory_size) ∧
      q.memory_size = p.memory_size := by
  induction calls generalizing p with
  | nil =>
    refine ⟨p, rfl, ?_, rfl⟩
    rw [List.append_nil, List.length_nil, Nat.add_zero,
      Nat.sub_eq_zero_of_le hlen, List.drop_zero]
  | cons c cs ih =>
    obtain ⟨q1, hq1, hmem, hsize, _⟩ := learn_ok p c.1 c.2 hms
    simp only [Prod.mk.eta] at hmem
    have hlen1 : q1.memory.length ≤ q1.memory_size := by
      rw [hmem, hsize]
      split
      next h =>
        simp only [List.length_tail, List.length_append,
          List.length_singleton]
        omega
      next h =>
        simp only [gt_iff_lt, not_lt, List.length_append,
          List.length_singleton] at h ⊢
        omega
    obtain ⟨q, hq, hqmem, hqsize⟩ := ih q1 (by rw [hsize]; exact hms) hlen1
    refine ⟨q, ?_, ?_, by rw [hqsize, hsize]⟩
    · rw [Predator.learnRun, List.foldlM_cons, hq1]
      exact hq
    · rw [hqmem, hsize, hmem]
      by_cases htop : (p.memory ++ [c]).length > p.memory_size
      · rw [if_pos htop]
        have hfull : p.memory.length = p.memory_size := by
          simp only [gt_iff_lt, List.length_append,
            List.length_singleton] at htop
          omega
        obtain ⟨a, t, hm⟩ : ∃ a t, p.memory = a :: t := by
          cases hmm : p.memory with
          | nil =>
            rw [hmm] at hfull
            exact absurd hfull.symm (by simpa using hms)
          | cons a t => exact ⟨a, t, rfl⟩
        have ht : t.length + 1 = p.memory_size := by
          rw [hm] at hfull
          simpa using hfull
        rw [hm]
        simp only [List.cons_append, List.tail_cons, List.length_append,
          List.length_cons, List.length_singleton, List.length_nil]
        have idx1 : t.length + 1 + cs.length - p.memory_size = cs.length := by
          omega
        have idx2 : t.length + 1 + (cs.length + 1) - p.memory_size
            = cs.length + 1 := by omega
        rw [idx1, idx2, List.drop_succ_cons]
        congr 1
        rw [List.append_assoc, List.singleton_append]
      · rw [if_neg htop]
        rw [List.append_assoc, List.singleton_append]
        congr 1
        simp only [List.length_append, List.length_singleton,
          List.length_cons, List.length_nil]
        omega

theorem learn_decay (p : Predator) (pat : ℚ) (out : String) (q : Predator)
    (hq : p.learn pat out = Except.ok q)
    (hlen : q.memory.length = p.memory_size)
    (hrate : ((q.memory.filter (fun e => e.2 = "satisfied")).length : ℚ) /
        (p.memory_size : ℚ) < p.learning_rate) :
    q.hunting_success = p.hunting_success * (9 / 10) ∧
    q.toxicity_threshold = p.toxicity_threshold * (9 / 10) := by
  simp only [Predator.learn] at hq
  generalize (if (p.memory ++ [(pat, out)]).length > p.memory_size
      then (p.memory ++ [(pat, out)]).tail
      else p.memory ++ [(pat, out)]) = mem at hq
  split at hq
  · split at hq
    · exact absurd hq (by simp)
    · split at hq
      · cases hq
        exact ⟨rfl, rfl⟩
      · cases hq
        next hnot => exact absurd hrate hnot
  · next hne =>
    cases hq
    exact absurd hlen hne

theorem learnRun_fill (calls : List (ℚ × String)) (p : Predator)
    (hlt : p.memory.length + calls.length < p.memory_size) :
    p.learnRun calls = Except.ok { p with memory := p.memory ++ calls } := by
  induction calls generalizing p with
  | nil =>
    rw [List.append_nil]
    exact rfl
  | cons c cs ih =>
    have hA : ¬((p.memory ++ [(c.1, c.2)]).length > p.memory_size) := by
      simp only [gt_iff_lt, not_lt, List.length_append, List.length_singleton]
      simp only [List.length_cons] at hlt
      omega
    have hB : ¬((p.memory ++ [(c.1, c.2)]).length = p.memory_size) := by
      simp only [List.length_append, List.length_singleton]
      simp only [List.length_cons] at hlt
      omega
    have hstep : p.learn c.1 c.2 =
        Except.ok { p with memory := p.memory ++ [c] } := by
      simp only [Predator.learn]
      rw [if_neg hA, if_neg hB, Prod.mk.eta]
    rw [Predator.learnRun, List.foldlM_cons, hstep]
    refine Eq.trans (ih { p with memory := p.memory ++ [c] } ?_) ?_
    · simp only [List.length_append, List.length_singleton]
      simp only [List.length_cons] at hlt
      omega
    · simp [List.append_assoc]

theorem learnRun_death (p : Predator) (hms : p.memory_size ≠ 0)
    (hmem : p.memory = []) (hlr : 0 < p.learning_rate) (pat : ℚ) :
    ∃ q, p.learnRun (List.replicate p.memory_size (pat, "death")) =
        Except.ok q ∧
      q.hunting_success = p.hunting_success * (9 / 10) ∧
      q.toxicity_threshold = p.toxicity_threshold * (9 / 10) := by
  obtain ⟨k, hk⟩ : ∃ k, p.memory_size = k + 1 :=
    ⟨p.memory_size - 1, by omega⟩
  have hfill := learnRun_fill (List.replicate k (pat, "death")) p
    (by rw [hmem]; simp [hk])
  have hlenfull :
      (p.memory ++ List.replicate k (pat, "death") ++
        [(pat, "death")]).length = p.memory_size := by
    simp only [List.length_append, List.length_replicate,
      List.length_singleton, hmem, List.length_nil]
    omega
  have hfilter : (p.memory ++ List.replicate k (pat, "death") ++
      [(pat, "death")]).filter (fun e => e.2 = "satisfied") = [] := by
    rw [hmem, List.nil_append, ← List.replicate_succ']
    exact List.filter_replicate_of_neg (by simp)
  have hA : ¬((p.memory ++ List.replicate k (pat, "death") ++
      [(pat, "death")]).length > p.memory_size) := by
    rw [hlenfull]
    omega
  have hC : (((p.memory ++ List.replicate k (pat, "death") ++
      [(pat, "death")]).filter (fun e => e.2 = "satisfied")).length : ℚ) /
      (p.memory_size : ℚ) < p.learning_rate := by
    rw [hfilter]
    simpa using hlr
  have hlast : Predator.learn
      { p with memory := p.memory ++ List.replicate k (pat, "death") }
      pat ("death") = Except.ok
      { p with
        memory := p.memory ++ List.replicate k (pat, "death") ++
          [(pat, "death")],
        hunting_success := p.hunting_success * (9 / 10),
        toxicity_threshold := p.toxicity_threshold * (9 / 10) } := by
    simp only [Predator.learn]
    rw [if_neg hA, if_pos hlenfull, if_neg hms, if_pos hC]
  refine ⟨{ p with
      memory := p.memory ++ List.replicate k (pat, "death") ++
        [(pat, "death")],
      hunting_success := p.hunting_success * (9 / 10),
      toxicity_threshold := p.toxicity_threshold * (9 / 10) }, ?_, rfl, rfl⟩
  have hfill2 := hfill
  rw [Predator.learnRun] at hfill2
  rw [hk, List.replicate_succ', Predator.learnRun, List.foldlM_append,
    hfill2]
  show Predator.learnRun _ [(pat, "death")] = _
  rw [Predator.learnRun, List.foldlM_cons, hlast, hk]
  exact rfl

/-- Claim C6: for `memory_size ≥ 1`, (a) `learn` never faults and memory
never exceeds `memory_size` after any sequence of calls; (b) eviction is
oldest-first: after `memory_size + 1` insertions into an empty memory the
result is the calls minus the first, so a first entry not repeated later
is gone; (c) whenever a call leaves memory exactly at capacity with a
"satisfied" fraction below `learning_rate`, `hunting_success` and
`toxicity_threshold` each become exactly 0.9 times their prior values;
(d) `memory_size` calls, all "death", from empty memory with a positive
`learning_rate` leave both traits at exactly 90% of their initial
values. -/
theorem learn_spec (p : Predator) (hms : 1 ≤ p.memory_size) :
    (∀ calls : List (ℚ × String), p.memory.length ≤ p.memory_size →
      ∃ q, p.learnRun calls = Except.ok q ∧
        q.memory.length ≤ p.memory_size) ∧
    (∀ calls : List (ℚ × String), p.memory = [] →
      calls.length = p.memory_size + 1 →
      ∃ q, p.learnRun calls = Except.ok q ∧ q.memory = calls.drop 1 ∧
        ∀ c cs, calls = c :: cs → c ∉ cs → c ∉ q.memory) ∧
    (∀ pat out q, p.learn pat out = Except.ok q →
      q.memory.length = p.memory_size →
      ((q.memory.filter (fun e => e.2 = "satisfied")).length : ℚ) /
          (p.memory_size : ℚ) < p.learning_rate →
      q.hunting_success = p.hunting_success * (9 / 10) ∧
      q.toxicity_threshold = p.toxicity_threshold * (9 / 10)) ∧
    (p.memory = [] → 0 < p.learning_rate → ∀ pat,
      ∃ q, p.learnRun (List.replicate p.memory_size (pat, "death")) =
          Except.ok q ∧
        q.hunting_success = p.hunting_success * (9 / 10) ∧
        q.toxicity_threshold = p.toxicity_threshold * (9 / 10)) := by
  have hms' : p.memory_size ≠ 0 := by omega
  refine ⟨?_, ?_, ?_, ?_⟩
  · intro calls hlen
    obtain ⟨q, hq, hmem, _⟩ := learnRun_window calls p hms' hlen
    refine ⟨q, hq, ?_⟩
    rw [hmem]
    simp only [List.length_drop, List.length_append]
    omega
  · intro calls hnil hlen
    obtain ⟨q, hq, hmem, _⟩ := learnRun_window calls p hms'
      (by rw [hnil]; simp)
    have hdrop : q.memory = calls.drop 1 := by
      rw [hmem, hnil, List.nil_append, List.length_nil, Nat.zero_add, hlen]
      congr 1
      omega
    refine ⟨q, hq, hdrop, ?_⟩
    intro c cs hcalls hnotin
    rw [hdrop, hcalls]
    simpa using hnotin
  · exact fun pat out q hq hl hr => learn_decay p pat out q hq hl hr
  · exact fun hnil hlr pat => learnRun_death p hms' hnil hlr pat

/-- Witness for `learn_spec`: the concrete healthy predator has
`memory_size = 2`, and two "death" calls cut `hunting_success` and
`toxicity_threshold` to 90%. -/
theorem learn_spec_witness :
    1 ≤ healthyPredator.memory_size ∧
    ∃ q, healthyPredator.learnRun
        (List.replicate healthyPredator.memory_size ((1 : ℚ)/2, "death")) =
        Except.ok q ∧
      q.hunting_success = healthyPredator.hunting_success * (9 / 10) ∧
      q.toxicity_threshold = healthyPredator.toxicity_threshold * (9 / 10) :=
  ⟨by decide,
    (learn_spec healthyPredator (by decide)).2.2.2 rfl
      (by norm_num [healthyPredator, sickPredator]) (1/2)⟩

/-- Claim C7: `Prey.evolve` changes nothing when the predation pressure
does not exceed `evolution_threshold` (for any draws); when it does and
the probability draw succeeds, `aposematic_pattern` and `toxicity` each
grow by the uniform draw from `[0.01, 0.1]`, clamped to a ceiling of 1;
when the draw fails, nothing changes. -/
theorem evolve_spec (p : Prey) (pressure r d1 d2 : ℚ) :
    (pressure ≤ p.evolution_threshold →
      p.evolve pressure r d1 d2 = p) ∧
    (p.evolution_threshold < pressure → r < p.evolution_probability →
      1/100 ≤ d1 → d1 ≤ 1/10 → 1/100 ≤ d2 → d2 ≤ 1/10 →
      (p.evolve pressure r d1 d2).aposematic_pattern =
          min 1 (p.aposematic_pattern + d1) ∧
      (p.evolve pressure r d1 d2).toxicity = min 1 (p.toxicity + d2)) ∧
    (p.evolution_threshold < pressure → ¬r < p.evolution_probability →
      p.evolve pressure r d1 d2 = p) := by
  refine ⟨?_, ?_, ?_⟩
  · intro h
    rw [Prey.evolve, if_neg (not_lt.mpr h)]
  · intro h hr _ _ _ _
    rw [Prey.evolve, if_pos h, if_pos hr]
    exact ⟨rfl, rfl⟩
  · intro h hr
    rw [Prey.evolve, if_pos h, if_neg hr]

/-- Witness for `evolve_spec`: the concrete prey with
`evolution_threshold = 1/2` is untouched at pressure `1/4`, and at
pressure `1` with a successful draw both traits grow by `1/50`. -/
theorem evolve_spec_witness :
    ((1 : ℚ)/4 ≤ plainPrey.evolution_threshold ∧
      plainPrey.evolve (1/4) 0 (1/50) (1/50) = plainPrey) ∧
    (plainPrey.evolution_threshold < 1 ∧
      (plainPrey.evolve 1 0 (1/50) (1/50)).aposematic_pattern =
          min 1 (plainPrey.aposematic_pattern + 1/50) ∧
      (plainPrey.evolve 1 0 (1/50) (1/50)).toxicity =
          min 1 (plainPrey.toxicity + 1/50)) := by
  refine ⟨⟨by norm_num [plainPrey], (evolve_spec plainPrey (1/4) 0 (1/50)
    (1/50)).1 (by norm_num [plainPrey])⟩, by norm_num [plainPrey], ?_, ?_⟩
  · exact ((evolve_spec plainPrey 1 0 (1/50) (1/50)).2.1
      (by norm_num [plainPrey]) (by norm_num [plainPrey]) (by norm_num)
      (by norm_num) (by norm_num) (by norm_num)).1
  · exact ((evolve_spec plainPrey 1 0 (1/50) (1/50)).2.1
      (by norm_num [plainPrey]) (by norm_num [plainPrey]) (by norm_num)
      (by norm_num) (by norm_num) (by norm_num)).2

/-- Claim C8: `Predator.reproduce` returns false with no state change when
`prey_eaten < min_prey_eaten`; when eligible and the draw succeeds it
resets `prey_eaten` to 0 and returns true, and when the draw fails it
returns false with no state change. -/
theorem reproduce_spec (p : Predator) (m : Nat) (r : ℚ) :
    (p.prey_eaten < m → p.reproduce m r = (p, false)) ∧
    (m ≤ p.prey_eaten → r < p.reproduction_rate →
      p.reproduce m r = ({ p with prey_eaten := 0 }, true)) ∧
    (m ≤ p.prey_eaten → ¬r < p.reproduction_rate →
      p.reproduce m r = (p, false)) := by
  refine ⟨?_, ?_, ?_⟩
  · intro h
    rw [Predator.reproduce, if_neg (by omega)]
  · intro h hr
    rw [Predator.reproduce, if_pos h, if_pos hr]
  · intro h hr
    rw [Predator.reproduce, if_pos h, if_neg hr]

/-- Witness for `reproduce_spec`: the concrete predator has eaten 0 prey,
so it cannot reproduce against a threshold of 3, and reproduces against a
threshold of 0 when the draw succeeds. -/
theorem reproduce_spec_witness :
    (healthyPredator.prey_eaten < 3 ∧
      healthyPredator.reproduce 3 0 = (healthyPredator, false)) ∧
    (0 ≤ sickPredator.prey_eaten ∧
      (0 : ℚ) < sickPredator.reproduction_rate ∧
      sickPredator.reproduce 0 0 =
        ({ sickPredator with prey_eaten := 0 }, true)) :=
  ⟨⟨by decide, (reproduce_spec healthyPredator 3 0).1 (by decide)⟩,
   by decide, by norm_num [sickPredator],
   (reproduce_spec sickPredator 0 0).2.1 (by decide)
     (by norm_num [sickPredator])⟩

/-- Claim C9: with `width = height = 2` and two creatures to place
(`N + M = 2 ≤ width × height = 4`), the placement retry loop never
completes: `np.random.randint(0, 1)` can only return 0, so the second
creature never finds an unoccupied cell, whatever the random stream — the
`while True` loop spins forever. -/
theorem place_creatures_diverges (draws : List (Nat × Nat)) :
    Environment.place_creatures 2 2 2 [] draws = none := by
  have hone : ∀ ds : List (Nat × Nat),
      Environment.place_one 2 2 [(0, 0)] ds = none := by
    intro ds
    induction ds with
    | nil => rfl
    | cons d ds ih =>
      rw [Environment.place_one]
      simpa [Environment.get_random_location, Nat.mod_one] using ih
  cases draws with
  | nil => rfl
  | cons d ds =>
    have h1 : Environment.place_one 2 2 [] (d :: ds) =
        some ((0, 0), ds) := by
      rw [Environment.place_one]
      simp [Environment.get_random_location, Nat.mod_one]
    have e1 : Environment.place_creatures 2 2 2 [] (d :: ds) =
        match Environment.place_one 2 2 [] (d :: ds) with
        | none => none
        | some (loc, ds2) =>
          Environment.place_creatures 2 2 1 [loc] ds2 := rfl
    rw [e1, h1]
    show Environment.place_creatures 2 2 1 [(0, 0)] ds = none
    have e2 : Environment.place_creatures 2 2 1 [(0, 0)] ds =
        match Environment.place_one 2 2 [(0, 0)] ds with
        | none => none
        | some (loc, ds2) =>
          Environment.place_creatures 2 2 0 (loc :: [(0, 0)]) ds2 := rfl
    rw [e2, hone ds]

/-- Every location that `place_one` hands out comes from
`get_random_location`. -/
theorem place_one_from_draw (width height : Nat) (occ : List (Nat × Nat)) :
    ∀ draws loc ds,
      Environment.place_one width height occ draws = some (loc, ds) →
      ∃ d, loc = Environment.get_random_location width height d := by
  intro draws
  induction draws with
  | nil => intro loc ds h; exact absurd h (by simp [Environment.place_one])
  | cons d draws ih =>
    intro loc ds h
    rw [Environment.place_one] at h
    split at h
    · exact ih loc ds h
    · exact ⟨d, (Prod.mk.injEq _ _ _ _ ▸ Option.some.inj h).1.symm⟩

/-- Every position produced by `place_creatures` is either an initial
occupant or an output of `get_random_location`. -/
theorem place_creatures_from_draw (width height : Nat) :
    ∀ n occ draws res,
      Environment.place_creatures width height n occ draws = some res →
      ∀ pos ∈ res, pos ∈ occ ∨
        ∃ d, pos = Environment.get_random_location width height d := by
  intro n
  induction n with
  | zero =>
    intro occ draws res h pos hpos
    exact Or.inl (Option.some.inj h ▸ hpos)
  | succ n ih =>
    intro occ draws res h pos hpos
    have e : Environment.place_creatures width height (n + 1) occ draws =
        match Environment.place_one width height occ draws with
        | none => none
        | some (loc, ds2) =>
          Environment.place_creatures width height n (loc :: occ) ds2 :=
      rfl
    rw [e] at h
    cases hpo : Environment.place_one width height occ draws with
    | none => rw [hpo] at h; exact absurd h (by simp)
    | some p =>
      obtain ⟨loc, ds2⟩ := p
      rw [hpo] at h
      rcases ih (loc :: occ) ds2 res h pos hpos with hin | hdraw
      · rcases List.mem_cons.mp hin with hl | ho
        · exact Or.inr (hl ▸ place_one_from_draw width height occ
            draws loc ds2 hpo)
        · exact Or.inl ho
      · exact Or.inr hdraw

/-- Claim C10: `get_random_location` never returns the last column or row
(`np.random.randint`'s upper bound is exclusive), so with
`width, height ≥ 2` every position assigned by placement satisfies
`x ≤ width - 2` and `y ≤ height - 2`, even though `is_within_bounds`
accepts the cell `(width - 1, height - 1)`. -/
theorem get_random_location_spec (width height : Nat) (r : Nat × Nat)
    (hw : 2 ≤ width) (hh : 2 ≤ height) :
    (Environment.get_random_location width height r).1 ≤ width - 2 ∧
    (Environment.get_random_location width height r).2 ≤ height - 2 ∧
    Environment.is_within_bounds width height
      ((width : Int) - 1, (height : Int) - 1) = true ∧
    (∀ n draws res,
      Environment.place_creatures width height n [] draws = some res →
      ∀ pos ∈ res, pos.1 ≤ width - 2 ∧ pos.2 ≤ height - 2) := by
  have hx : ∀ d : Nat × Nat,
      (Environment.get_random_location width height d).1 ≤ width - 2 ∧
      (Environment.get_random_location width height d).2 ≤ height - 2 := by
    intro d
    constructor
    · have h1 : d.1 % (width - 1) < width - 1 := Nat.mod_lt _ (by omega)
      show d.1 % (width - 1) ≤ width - 2
      omega
    · have h2 : d.2 % (height - 1) < height - 1 := Nat.mod_lt _ (by omega)
      show d.2 % (height - 1) ≤ height - 2
      omega
  refine ⟨(hx r).1, (hx r).2, ?_, ?_⟩
  · simp only [Environment.is_within_bounds]
    simp only [decide_eq_true_eq]
    omega
  · intro n draws res h pos hpos
    rcases place_creatures_from_draw width height n [] draws res h pos
      hpos with hin | ⟨d, hd⟩
    · exact absurd hin (List.not_mem_nil pos)
    · rw [hd]
      exact hx d

/-- Witness for `get_random_location_spec` at `width = height = 3` with
the draw `(5, 7)`. -/
theorem get_random_location_spec_witness :
    (Environment.get_random_location 3 3 (5, 7)).1 ≤ 1 ∧
    (Environment.get_random_location 3 3 (5, 7)).2 ≤ 1 ∧
    Environment.is_within_bounds 3 3 (2, 2) = true :=
  ⟨(get_random_location_spec 3 3 (5, 7) (by decide) (by decide)).1,
   (get_random_location_spec 3 3 (5, 7) (by decide) (by decide)).2.1,
   (get_random_location_spec 3 3 (5, 7) (by decide) (by decide)).2.2.1⟩
